import Mathlib

/-!
A shallow embedding of the `ComboBox` interaction controller from
`src/combobox/index.ts`.

Modelling conventions:

* JavaScript values that may be `undefined` are modelled with `Option`.
  The fields `_open`, `_wasOpen` and `_ignoreBlur` are declared
  `boolean | undefined` in the source but are only ever used in boolean
  positions (`!x`, `x && ...`, `x === true`), where `undefined` behaves
  exactly like `false`; they are therefore modelled as `Bool` with the
  initial `undefined` mapped to `false`.
* `_activeIndex` is a JavaScript number that the code only ever sets to
  integers (including `-1` via `results.length - 1` on an empty list), so
  it is modelled as `Int`.
* Result items have an abstract type `α`; JavaScript's `undefined` value
  (produced by out-of-range indexing `results[i]`) is modelled as `none`
  of `Option α`, so owner-supplied functions over results take `Option α`.
  The default string conversion of a value (the template literal
  `\x7bresult\x7d`) is an abstract parameter `toStr : Option α → String`.
* Owner callbacks (`onValue`, `onRequestResults`, ...) are modelled as an
  emitted `Effect` list, in invocation order.  The source guards each call
  with `cb && cb(...)`; absence of a callback only drops the invocation and
  changes no state, so the embedding emits the effect unconditionally.
* `this.invalidate()` and `this.focus()` are recorded as effects;
  `event.stopPropagation()` and `preventDefault()` likewise.
-/

/-- The key codes consumed by `_onInputKey`.  The `Keys` enum lives in
`src/common/util`, which is not among the sources; the handler only
branches on the identity of seven named keys, so keys are modelled as an
inductive with one constructor per named key plus a catch-all `other`
carrying the raw numeric code. -/
inductive Key where
  | up
  | down
  | escape
  | enter
  | space
  | home
  | endKey
  | other (code : Nat)
deriving DecidableEq, Repr

/-- `enum Operation { increase = 1, decrease = -1 }`. -/
inductive Operation where
  | increase
  | decrease
deriving DecidableEq, Repr

/-- The numeric value of an `Operation` member. -/
def Operation.val : Operation → Int
  | .increase => 1
  | .decrease => -1

/-- The `valid` property: `{ valid?: boolean; message?: string } | boolean`. -/
inductive JsValid where
  | bool (b : Bool)
  | structured (valid : Option Bool) (message : Option String)
deriving DecidableEq, Repr

/-- The private mutable fields of the `ComboBox` class. -/
structure State where
  _activeIndex : Int := 0
  _ignoreBlur : Bool := false
  _menuHasVisualFocus : Bool := false
  _open : Bool := false
  _wasOpen : Bool := false
deriving DecidableEq, Repr

/-- The subset of `ComboboxProperties` the interaction logic reads.
Function-valued properties take `Option α` because JavaScript may hand
them `undefined` (out-of-range indexing). -/
structure Props (α : Type) where
  disabled : Bool := false
  readOnly : Bool := false
  openOnFocus : Bool := false
  results : List α := []
  isResultDisabled : Option (Option α → Bool) := none
  getResultLabel : Option (Option α → String) := none
  getResultValue : Option (Option α → String) := none
  valid : Option JsValid := none
  helperText : Option String := none

/-- One owner-visible side effect of a handler or render pass, in
invocation order. -/
inductive Effect (α : Type) where
  | onValue (value : String)
  | onResultSelect (result : Option α)
  | onRequestResults
  | onMenuChange (openFlag : Bool)
  | onBlur
  | onFocus
  | invalidate
  | focusSelf
  | preventDefault
  | stopPropagation
deriving DecidableEq, Repr

/-- JavaScript indexing `results[i]`: `undefined` (`none`) outside
`[0, length)`. -/
def jsIndex {α : Type} (l : List α) (i : Int) : Option α :=
  if h : 0 ≤ i ∧ i.toNat < l.length then some (l.get ⟨i.toNat, h.2⟩) else none

/-- JavaScript's `%` operator on integers (truncated remainder). -/
def jsMod (a b : Int) : Int := Int.tmod a b

/-- The effective `isResultDisabled`, defaulted to `() => false`. -/
def isResultDisabledFn {α : Type} (p : Props α) : Option α → Bool :=
  p.isResultDisabled.getD (fun _ => false)

/-- `_getResultLabel`: owner label function, else default string
conversion.  (The source returns a `DNode`; only its string conversion is
observable in the modelled claims, so labels are modelled as `String`.) -/
def _getResultLabel {α : Type} (p : Props α) (toStr : Option α → String)
    (result : Option α) : String :=
  match p.getResultLabel with
  | some f => f result
  | none => toStr result

/-- `_getResultValue`: `getResultValue` defaulted to `getResultLabel`
(destructuring default), then applied and stringified, else the default
string conversion of the result. -/
def _getResultValue {α : Type} (p : Props α) (toStr : Option α → String)
    (result : Option α) : String :=
  match p.getResultValue with
  | some f => f result
  | none =>
    match p.getResultLabel with
    | some f => f result
    | none => toStr result

/-- `_closeMenu`. -/
def _closeMenu {α : Type} (st : State) : State × List (Effect α) :=
  ({ st with _open := false }, [.invalidate])

/-- `_openMenu`. -/
def _openMenu {α : Type} (st : State) : State × List (Effect α) :=
  ({ st with _activeIndex := 0, _open := true }, [.onRequestResults, .invalidate])

/-- `_selectIndex`. -/
def _selectIndex {α : Type} (p : Props α) (toStr : Option α → String)
    (st : State) (index : Int) : State × List (Effect α) :=
  let closed := _closeMenu (α := α) st
  (closed.1,
    .focusSelf :: closed.2 ++
      [.onResultSelect (jsIndex p.results index),
       .onValue (_getResultValue p toStr (jsIndex p.results index))])

/-- `_moveActiveIndex`. -/
def _moveActiveIndex {α : Type} (p : Props α) (st : State)
    (operation : Operation) : State × List (Effect α) :=
  if p.results.length = 0 then
    ({ st with _activeIndex := 0 }, [.invalidate])
  else
    let total : Int := p.results.length
    ({ st with _activeIndex := jsMod (st._activeIndex + operation.val + total) total },
      [.invalidate])

/-- `_onInputKey`: sets `_menuHasVisualFocus` unconditionally, then
branches on the key. -/
def _onInputKey {α : Type} (p : Props α) (toStr : Option α → String)
    (key : Key) (st : State) : State × List (Effect α) :=
  let st := { st with _menuHasVisualFocus := true }
  match key with
  | .up =>
    let m := _moveActiveIndex p st .decrease
    (m.1, .preventDefault :: m.2)
  | .down =>
    if !st._open && !p.disabled && !p.readOnly then
      let m := _openMenu (α := α) st
      (m.1, .preventDefault :: m.2)
    else if st._open then
      let m := _moveActiveIndex p st .increase
      (m.1, .preventDefault :: m.2)
    else
      (st, [.preventDefault])
  | .escape =>
    if st._open then _closeMenu st else (st, [])
  | .enter =>
    if st._open && p.results.length > 0 then
      if isResultDisabledFn p (jsIndex p.results st._activeIndex) then
        (st, [])
      else
        _selectIndex p toStr st st._activeIndex
    else
      (st, [])
  | .space =>
    if st._open && p.results.length > 0 then
      if isResultDisabledFn p (jsIndex p.results st._activeIndex) then
        (st, [])
      else
        _selectIndex p toStr st st._activeIndex
    else
      (st, [])
  | .home =>
    ({ st with _activeIndex := 0 }, [.invalidate])
  | .endKey =>
    ({ st with _activeIndex := (p.results.length : Int) - 1 }, [.invalidate])
  | .other _ =>
    (st, [])

/-- `_onInputBlur`. -/
def _onInputBlur {α : Type} (st : State) : State × List (Effect α) :=
  if st._ignoreBlur then
    ({ st with _ignoreBlur := false }, [])
  else
    let closed := _closeMenu (α := α) st
    (closed.1, .onBlur :: closed.2)

/-- `_onInputFocus`. -/
def _onInputFocus {α : Type} (p : Props α) (st : State) :
    State × List (Effect α) :=
  if !p.disabled && !p.readOnly && p.openOnFocus then
    let m := _openMenu (α := α) st
    (m.1, .onFocus :: m.2)
  else
    (st, [.onFocus])

/-- `_onInputValue`. -/
def _onInputValue {α : Type} (p : Props α) (value : String) (st : State) :
    State × List (Effect α) :=
  if !p.disabled && !p.readOnly then
    let m := _openMenu (α := α) st
    (m.1, .onValue value :: m.2)
  else
    (st, [.onValue value])

/-- `_onArrowClick`. -/
def _onArrowClick {α : Type} (p : Props α) (st : State) :
    State × List (Effect α) :=
  if !p.disabled && !p.readOnly then
    let m := _openMenu (α := α) st
    (m.1, .stopPropagation :: .focusSelf :: m.2)
  else
    (st, [.stopPropagation])

/-- `_onClearClick`. -/
def _onClearClick {α : Type} (st : State) : State × List (Effect α) :=
  (st, [.stopPropagation, .focusSelf, .invalidate, .onValue ""])

/-- `_onResultMouseDown`. -/
def _onResultMouseDown {α : Type} (st : State) : State × List (Effect α) :=
  ({ st with _ignoreBlur := true }, [.stopPropagation])

/-- `_onResultHover`. -/
def _onResultHover {α : Type} (st : State) : State × List (Effect α) :=
  ({ st with _menuHasVisualFocus := false }, [.invalidate])

/-- The `onActiveIndexChange` closure passed to the `Listbox` in
`renderMenu`. -/
def _onListboxActiveIndexChange {α : Type} (index : Nat) (st : State) :
    State × List (Effect α) :=
  ({ st with _activeIndex := index }, [.invalidate])

/-- The `onOptionSelect` closure passed to the `Listbox` in `renderMenu`. -/
def _onListboxOptionSelect {α : Type} (p : Props α)
    (toStr : Option α → String) (index : Nat) (st : State) :
    State × List (Effect α) :=
  _selectIndex p toStr st index

/-- The events the controller reacts to. -/
inductive Event (α : Type) where
  | inputKey (key : Key)
  | inputBlur
  | inputFocus
  | inputValue (value : String)
  | arrowClick
  | clearClick
  | resultMouseDown
  | resultHover
  | listboxActiveIndexChange (index : Nat)
  | listboxOptionSelect (index : Nat)
deriving DecidableEq, Repr

/-- Event dispatch: one controller step. -/
def step {α : Type} (p : Props α) (toStr : Option α → String)
    (e : Event α) (st : State) : State × List (Effect α) :=
  match e with
  | .inputKey key => _onInputKey p toStr key st
  | .inputBlur => _onInputBlur st
  | .inputFocus => _onInputFocus p st
  | .inputValue v => _onInputValue p v st
  | .arrowClick => _onArrowClick p st
  | .clearClick => _onClearClick st
  | .resultMouseDown => _onResultMouseDown st
  | .resultHover => _onResultHover st
  | .listboxActiveIndexChange i => _onListboxActiveIndexChange i st
  | .listboxOptionSelect i => _onListboxOptionSelect p toStr i st

/-- The `validity` accessor: normalizes `valid` to a
`(valid, message)` pair. -/
def validity {α : Type} (p : Props α) : Option Bool × Option String :=
  match p.valid with
  | none => (none, none)
  | some (.bool b) => (some b, none)
  | some (.structured v m) => (v, m)

/-- The state-relevant observables of one render pass. -/
structure RenderOut where
  menuRendered : Bool
  helperShown : Bool
  helperValid : Option Bool
deriving DecidableEq, Repr

/-- The `render` method, restricted to its state reads and writes and to
the observables the claims mention, in source order:
`renderMenu`, then `_onMenuChange`, then the empty-results forcing of
`_open`, then `_wasOpen := _open`, then the helper-text region guarded by
`!this._open`. -/
def render {α : Type} (p : Props α) (st : State) :
    State × List (Effect α) × RenderOut :=
  let menuRendered := !(p.results.length == 0) && st._open
  let menuChange : List (Effect α) :=
    (if st._open && !st._wasOpen then [.onMenuChange true] else []) ++
      (if !st._open && st._wasOpen then [.onMenuChange false] else [])
  let forced := (p.results.length == 0) && st._open
  let st1 := if forced then { st with _open := false } else st
  let effs := menuChange ++ (if forced then [.invalidate] else [])
  let st2 := { st1 with _wasOpen := st1._open }
  let v := validity p
  (st2, effs,
    { menuRendered := menuRendered
      helperShown := !st1._open
      helperValid := v.1 })

/-- The effect list of one render pass. -/
def renderEffects {α : Type} (p : Props α) (st : State) : List (Effect α) :=
  (render p st).2.1

/-- Number of `onRequestResults` invocations in an effect list. -/
def countRequestResults {α : Type} : List (Effect α) → Nat
  | [] => 0
  | .onRequestResults :: rest => countRequestResults rest + 1
  | _ :: rest => countRequestResults rest

/-- Number of `onMenuChange` invocations with a given argument. -/
def countMenuChange {α : Type} (b : Bool) : List (Effect α) → Nat
  | [] => 0
  | .onMenuChange b' :: rest =>
    countMenuChange b rest + (if b' = b then 1 else 0)
  | _ :: rest => countMenuChange b rest

/-- Whether an effect list invokes `onResultSelect`. -/
def hasResultSelect {α : Type} : List (Effect α) → Bool
  | [] => false
  | .onResultSelect _ :: _ => true
  | _ :: rest => hasResultSelect rest

/-- Whether an effect list invokes `onValue`. -/
def hasOnValue {α : Type} : List (Effect α) → Bool
  | [] => false
  | .onValue _ :: _ => true
  | _ :: rest => hasOnValue rest

/-- Whether an effect list invokes `onBlur`. -/
def hasOnBlur {α : Type} : List (Effect α) → Bool
  | [] => false
  | .onBlur :: _ => true
  | _ :: rest => hasOnBlur rest

/-- The spec's index invariant (§3): `_activeIndex` within `[0, N-1]`
when there are results, and `0` when there are none. -/
def IndexInvariant {α : Type} (p : Props α) (st : State) : Prop :=
  (0 < p.results.length →
    0 ≤ st._activeIndex ∧ st._activeIndex < (p.results.length : Int)) ∧
  (p.results.length = 0 → st._activeIndex = 0)

instance {α : Type} (p : Props α) (st : State) :
    Decidable (IndexInvariant p st) := by
  unfold IndexInvariant; infer_instance

theorem jsMod_eq_emod {a b : Int} (h0 : 0 ≤ a) (hb : 0 ≤ b) :
    jsMod a b = a % b :=
  Int.tmod_eq_emod h0 hb

theorem jsIndex_natCast {α : Type} (l : List α) (i : Nat) (h : i < l.length) :
    jsIndex l (i : Int) = some (l.get ⟨i, h⟩) := by
  unfold jsIndex
  rw [dif_pos]
  · simp
  · exact ⟨Int.natCast_nonneg i, by simpa using h⟩

theorem moveActiveIndex_state {α : Type} (p : Props α) (st : State)
    (op : Operation) (hN : p.results.length ≠ 0) (h0 : 0 ≤ st._activeIndex) :
    (_moveActiveIndex p st op).1 =
      { st with _activeIndex :=
          (st._activeIndex + op.val) % (p.results.length : Int) } := by
  have hN' : (0 : Int) < (p.results.length : Int) := by
    exact_mod_cast Nat.pos_of_ne_zero hN
  have harg : 0 ≤ st._activeIndex + op.val + (p.results.length : Int) := by
    cases op <;> simp only [Operation.val] <;> omega
  unfold _moveActiveIndex
  rw [if_neg hN]
  simp only [jsMod_eq_emod harg (le_of_lt hN')]
  have : (st._activeIndex + op.val + (p.results.length : Int)) %
      (p.results.length : Int) =
      (st._activeIndex + op.val) % (p.results.length : Int) := by
    have := Int.add_mul_emod_self_left (st._activeIndex + op.val)
      (p.results.length : Int) 1
    rw [mul_one] at this
    exact this
  rw [this]

theorem moveActiveIndex_inv {α : Type} (p : Props α) (st : State)
    (op : Operation) (h : IndexInvariant p st) :
    IndexInvariant p (_moveActiveIndex p st op).1 := by
  by_cases hN : p.results.length = 0
  · unfold _moveActiveIndex
    rw [if_pos hN]
    exact ⟨fun hpos => absurd hN (Nat.pos_iff_ne_zero.mp hpos), fun _ => rfl⟩
  · have h0 : 0 ≤ st._activeIndex := (h.1 (Nat.pos_of_ne_zero hN)).1
    rw [moveActiveIndex_state p st op hN h0]
    have hN' : (0 : Int) < (p.results.length : Int) := by
      exact_mod_cast Nat.pos_of_ne_zero hN
    refine ⟨fun _ => ⟨Int.emod_nonneg _ (ne_of_gt hN'),
      Int.emod_lt_of_pos _ hN'⟩, fun hz => absurd hz hN⟩

theorem openMenu_inv {α : Type} (p : Props α) (st : State) :
    IndexInvariant p (_openMenu (α := α) st).1 := by
  unfold _openMenu IndexInvariant
  refine ⟨fun hpos => ⟨le_refl 0, ?_⟩, fun _ => rfl⟩
  show (0 : Int) < (p.results.length : Int)
  exact_mod_cast hpos

theorem IndexInvariant_of_eq_index {α : Type} (p : Props α) {s t : State}
    (h : s._activeIndex = t._activeIndex) (hi : IndexInvariant p s) :
    IndexInvariant p t := by
  unfold IndexInvariant at hi ⊢
  rw [← h]
  exact hi

/-- C1 (counterexample): with empty `results` and the menu open (and
`_wasOpen` already `true`), the render forces `_open` to `false` but the
effect list contains no `onMenuChange false` invocation, and neither does
the follow-up render — the claim's "exactly once" fails. -/
theorem C1_counterexample :
    (render ({ results := [] } : Props Nat)
        ({ _open := true, _wasOpen := true } : State)).1._open = false ∧
    countMenuChange false
      (render ({ results := [] } : Props Nat)
        ({ _open := true, _wasOpen := true } : State)).2.1 = 0 ∧
    countMenuChange false
      (render ({ results := [] } : Props Nat)
        (render ({ results := [] } : Props Nat)
          ({ _open := true, _wasOpen := true } : State)).1).2.1 = 0 := by
  decide

/-- C1 (amended): a render with empty `results` while `_open` is `true`
forces `_open` to `false` and sets `_wasOpen` to `false`, but
`onMenuChange` is never invoked with `false` for this transition — not in
the forcing render and not in the follow-up render — because `_wasOpen`
is updated to the already-forced value within the same render pass. -/
theorem C1_empty_results_force_close {α : Type} (p : Props α) (st : State)
    (hres : p.results = []) (hopen : st._open = true) :
    (render p st).1._open = false ∧
    (render p st).1._wasOpen = false ∧
    countMenuChange false (render p st).2.1 = 0 ∧
    countMenuChange false (render p (render p st).1).2.1 = 0 := by
  rcases st with ⟨ai, ib, mf, op, wo⟩
  have hop : op = true := hopen
  subst hop
  cases wo <;> simp [render, hres, countMenuChange]

/-- C1 (witness for the amended theorem). -/
theorem C1_empty_results_force_close_witness :
    (([] : List Nat) = [] ∧
      ({ _open := true, _wasOpen := true } : State)._open = true) ∧
    ((render ({ results := [] } : Props Nat)
        ({ _open := true, _wasOpen := true } : State)).1._open = false ∧
      (render ({ results := [] } : Props Nat)
        ({ _open := true, _wasOpen := true } : State)).1._wasOpen = false ∧
      countMenuChange false
        (render ({ results := [] } : Props Nat)
          ({ _open := true, _wasOpen := true } : State)).2.1 = 0 ∧
      countMenuChange false
        (render ({ results := [] } : Props Nat)
          (render ({ results := [] } : Props Nat)
            ({ _open := true, _wasOpen := true } : State)).1).2.1 = 0) :=
  ⟨⟨rfl, rfl⟩,
    C1_empty_results_force_close ({ results := [] } : Props Nat)
      ({ _open := true, _wasOpen := true } : State) rfl rfl⟩

/-- C2 (counterexample): from the initial state (which satisfies the
index invariant) with empty `results`, the End key sets `_activeIndex` to
`results.length - 1 = -1`, not `0`: the claimed invariant is broken. -/
theorem C2_counterexample :
    IndexInvariant ({ results := [] } : Props Nat) ({} : State) ∧
    (step ({ results := [] } : Props Nat) (fun _ => "")
        (Event.inputKey Key.endKey) ({} : State)).1._activeIndex = -1 ∧
    ¬ IndexInvariant ({ results := [] } : Props Nat)
      (step ({ results := [] } : Props Nat) (fun _ => "")
        (Event.inputKey Key.endKey) ({} : State)).1 := by
  refine ⟨by decide, by decide, ?_⟩
  intro h
  have := h.2 rfl
  simp [step, _onInputKey] at this

/-- C2 (amended): every event handler preserves the index invariant
(`_activeIndex ∈ [0, N-1]` when `N > 0`, and `= 0` when the results are
empty), provided the listbox active-index callback reports an index
within the current results and the event is not the End key on empty
results; End with empty results instead sets `_activeIndex` to `-1`.
Home and End set `_activeIndex` to `0` and `N - 1` respectively without
changing the open flag. -/
theorem C2_index_invariant {α : Type} (p : Props α)
    (toStr : Option α → String) (st : State) (e : Event α)
    (hinv : IndexInvariant p st)
    (hlb : ∀ i, e = Event.listboxActiveIndexChange i → i < p.results.length)
    (hend : e = Event.inputKey Key.endKey → p.results ≠ []) :
    IndexInvariant p (step p toStr e st).1 ∧
    ((step p toStr (Event.inputKey Key.home) st).1._activeIndex = 0 ∧
      (step p toStr (Event.inputKey Key.home) st).1._open = st._open) ∧
    ((step p toStr (Event.inputKey Key.endKey) st).1._activeIndex =
        (p.results.length : Int) - 1 ∧
      (step p toStr (Event.inputKey Key.endKey) st).1._open = st._open) := by
  refine ⟨?_, ⟨rfl, rfl⟩, ⟨rfl, rfl⟩⟩
  cases e with
  | inputKey key =>
    cases key with
    | up =>
      exact moveActiveIndex_inv p _ .decrease
        (IndexInvariant_of_eq_index p rfl hinv)
    | down =>
      simp only [step, _onInputKey]
      split
      · exact openMenu_inv p _
      · split
        · exact moveActiveIndex_inv p _ .increase
            (IndexInvariant_of_eq_index p rfl hinv)
        · exact IndexInvariant_of_eq_index p rfl hinv
    | escape =>
      simp only [step, _onInputKey]
      split
      · exact IndexInvariant_of_eq_index p rfl hinv
      · exact IndexInvariant_of_eq_index p rfl hinv
    | enter =>
      simp only [step, _onInputKey]
      split
      · split
        · exact IndexInvariant_of_eq_index p rfl hinv
        · exact IndexInvariant_of_eq_index p rfl hinv
      · exact IndexInvariant_of_eq_index p rfl hinv
    | space =>
      simp only [step, _onInputKey]
      split
      · split
        · exact IndexInvariant_of_eq_index p rfl hinv
        · exact IndexInvariant_of_eq_index p rfl hinv
      · exact IndexInvariant_of_eq_index p rfl hinv
    | home =>
      exact ⟨fun hpos => ⟨le_refl 0, by
        show (0 : Int) < (p.results.length : Int)
        exact_mod_cast hpos⟩, fun _ => rfl⟩
    | endKey =>
      have hne := hend rfl
      have hN : p.results.length ≠ 0 := fun h =>
        hne (List.length_eq_zero.mp h)
      have hN' : (0 : Int) < (p.results.length : Int) := by
        exact_mod_cast Nat.pos_of_ne_zero hN
      refine ⟨fun _ => ⟨?_, ?_⟩, fun hz => absurd hz hN⟩
      · show (0 : Int) ≤ (p.results.length : Int) - 1
        omega
      · show (p.results.length : Int) - 1 < (p.results.length : Int)
        omega
    | other n =>
      exact IndexInvariant_of_eq_index p rfl hinv
  | inputBlur =>
    simp only [step, _onInputBlur]
    split
    · exact IndexInvariant_of_eq_index p rfl hinv
    · exact IndexInvariant_of_eq_index p rfl hinv
  | inputFocus =>
    simp only [step, _onInputFocus]
    split
    · exact openMenu_inv p _
    · exact IndexInvariant_of_eq_index p rfl hinv
  | inputValue v =>
    simp only [step, _onInputValue]
    split
    · exact openMenu_inv p _
    · exact IndexInvariant_of_eq_index p rfl hinv
  | arrowClick =>
    simp only [step, _onArrowClick]
    split
    · exact openMenu_inv p _
    · exact IndexInvariant_of_eq_index p rfl hinv
  | clearClick =>
    exact IndexInvariant_of_eq_index p rfl hinv
  | resultMouseDown =>
    exact IndexInvariant_of_eq_index p rfl hinv
  | resultHover =>
    exact IndexInvariant_of_eq_index p rfl hinv
  | listboxActiveIndexChange i =>
    have hi := hlb i rfl
    refine ⟨fun _ => ⟨?_, ?_⟩, fun hz => absurd (hz ▸ hi) (by simp)⟩
    · show (0 : Int) ≤ (i : Int)
      exact_mod_cast Nat.zero_le i
    · show ((i : Nat) : Int) < (p.results.length : Int)
      exact_mod_cast hi
  | listboxOptionSelect i =>
    exact IndexInvariant_of_eq_index p rfl hinv

/-- C2 (witness for the amended theorem). -/
theorem C2_index_invariant_witness :
    IndexInvariant ({ results := [3, 4] } : Props Nat) ({} : State) ∧
    IndexInvariant ({ results := [3, 4] } : Props Nat)
      (step ({ results := [3, 4] } : Props Nat) (fun _ => "")
        (Event.inputKey Key.up) ({} : State)).1 :=
  ⟨by decide,
    (C2_index_invariant ({ results := [3, 4] } : Props Nat) (fun _ => "")
      ({} : State) (Event.inputKey Key.up) (by decide)
      (fun i h => by cases h) (fun h => by cases h)).1⟩

/-- C3 (counterexample): a key outside the seven handled ones is not a
complete no-op: `_onInputKey` sets `_menuHasVisualFocus` to `true`
unconditionally before the switch, so the flag flips from `false` to
`true` on, e.g., key code 65. -/
theorem C3_counterexample :
    ({} : State)._menuHasVisualFocus = false ∧
    (step ({} : Props Nat) (fun _ => "") (Event.inputKey (Key.other 65))
        ({} : State)).1._menuHasVisualFocus = true := by
  decide

/-- C3 (amended): for every key other than Up, Down, Escape, Enter,
Space, Home and End, the key handler leaves `_open`, `_wasOpen`,
`_activeIndex` and `_ignoreBlur` unchanged and emits no effect, but sets
`_menuHasVisualFocus` to `true`; Escape while the menu is closed behaves
the same way. -/
theorem C3_other_key_state {α : Type} (p : Props α)
    (toStr : Option α → String) (st : State) (n : Nat) :
    step p toStr (Event.inputKey (Key.other n)) st =
      ({ st with _menuHasVisualFocus := true }, []) ∧
    (st._open = false →
      step p toStr (Event.inputKey Key.escape) st =
        ({ st with _menuHasVisualFocus := true }, [])) := by
  constructor
  · rfl
  · intro h
    simp [step, _onInputKey, h]

/-- C3 (witness for the amended theorem). -/
theorem C3_other_key_state_witness :
    step ({} : Props Nat) (fun _ => "") (Event.inputKey (Key.other 65))
        ({} : State) =
      ({ ({} : State) with _menuHasVisualFocus := true }, []) ∧
    step ({} : Props Nat) (fun _ => "") (Event.inputKey Key.escape)
        ({} : State) =
      ({ ({} : State) with _menuHasVisualFocus := true }, []) :=
  ⟨(C3_other_key_state ({} : Props Nat) (fun _ => "") ({} : State) 65).1,
    (C3_other_key_state ({} : Props Nat) (fun _ => "") ({} : State) 65).2 rfl⟩

/-- C4: pressing Down with the menu closed and `disabled` and `readOnly`
both false opens the menu, resets `_activeIndex` to `0`, and invokes
`onRequestResults` exactly once. -/
theorem C4_down_opens_menu {α : Type} (p : Props α)
    (toStr : Option α → String) (st : State) (hopen : st._open = false)
    (hd : p.disabled = false) (hr : p.readOnly = false) :
    (step p toStr (Event.inputKey Key.down) st).1._open = true ∧
    (step p toStr (Event.inputKey Key.down) st).1._activeIndex = 0 ∧
    countRequestResults (step p toStr (Event.inputKey Key.down) st).2 = 1 := by
  simp [step, _onInputKey, _openMenu, hopen, hd, hr, countRequestResults]

/-- C4 (witness). -/
theorem C4_down_opens_menu_witness :
    (step ({} : Props Nat) (fun _ => "") (Event.inputKey Key.down)
        ({} : State)).1._open = true ∧
    (step ({} : Props Nat) (fun _ => "") (Event.inputKey Key.down)
        ({} : State)).1._activeIndex = 0 ∧
    countRequestResults
      (step ({} : Props Nat) (fun _ => "") (Event.inputKey Key.down)
        ({} : State)).2 = 1 :=
  C4_down_opens_menu ({} : Props Nat) (fun _ => "") ({} : State) rfl rfl rfl

/-- C5: with `N ≥ 1` results, applying the increase move `N` consecutive
times is the identity on an in-range `_activeIndex`; the decrease move
from index `0` yields `N - 1`; the increase move from `N - 1` yields `0`. -/
theorem C5_wraparound {α : Type} (p : Props α)
    (hN : 0 < p.results.length) :
    (∀ st : State, 0 ≤ st._activeIndex →
        st._activeIndex < (p.results.length : Int) →
        ((fun s => (_moveActiveIndex p s Operation.increase).1)^[p.results.length]
            st)._activeIndex = st._activeIndex) ∧
    (∀ st : State, st._activeIndex = 0 →
        (_moveActiveIndex p st Operation.decrease).1._activeIndex =
          (p.results.length : Int) - 1) ∧
    (∀ st : State, st._activeIndex = (p.results.length : Int) - 1 →
        (_moveActiveIndex p st Operation.increase).1._activeIndex = 0) := by
  have hNz : p.results.length ≠ 0 := Nat.pos_iff_ne_zero.mp hN
  have hN' : (0 : Int) < (p.results.length : Int) := by exact_mod_cast hN
  refine ⟨?_, ?_, ?_⟩
  · have iter : ∀ (k : Nat) (st : State), 0 ≤ st._activeIndex →
        st._activeIndex < (p.results.length : Int) →
        ((fun s => (_moveActiveIndex p s Operation.increase).1)^[k]
            st)._activeIndex =
          (st._activeIndex + (k : Int)) % (p.results.length : Int) := by
      intro k
      induction k with
      | zero =>
        intro st h0 hlt
        simp [Int.emod_eq_of_lt h0 hlt]
      | succ k ih =>
        intro st h0 hlt
        rw [Function.iterate_succ_apply]
        have hst1 : ((_moveActiveIndex p st Operation.increase).1)._activeIndex =
            (st._activeIndex + 1) % (p.results.length : Int) := by
          rw [moveActiveIndex_state p st .increase hNz h0]
          rfl
        rw [ih _ (by rw [hst1]; exact Int.emod_nonneg _ (ne_of_gt hN'))
            (by rw [hst1]; exact Int.emod_lt_of_pos _ hN')]
        rw [hst1, Int.emod_add_emod]
        congr 1
        push_cast
        ring
    intro st h0 hlt
    rw [iter p.results.length st h0 hlt]
    have key := Int.add_mul_emod_self_left st._activeIndex
      (p.results.length : Int) 1
    rw [mul_one] at key
    rw [key]
    exact Int.emod_eq_of_lt h0 hlt
  · intro st h
    rw [moveActiveIndex_state p st .decrease hNz (by rw [h])]
    show (st._activeIndex + Operation.val .decrease) %
        (p.results.length : Int) = (p.results.length : Int) - 1
    rw [h]
    show ((0 : Int) + (-1)) % (p.results.length : Int) =
      (p.results.length : Int) - 1
    have key := Int.add_mul_emod_self_left (-1 : Int)
      (p.results.length : Int) 1
    rw [mul_one] at key
    rw [show ((0 : Int) + (-1)) = (-1 : Int) by ring, ← key]
    exact Int.emod_eq_of_lt (by omega) (by omega)
  · intro st h
    rw [moveActiveIndex_state p st .increase hNz (by rw [h]; omega)]
    show (st._activeIndex + Operation.val .increase) %
        (p.results.length : Int) = 0
    rw [h]
    show ((p.results.length : Int) - 1 + 1) % (p.results.length : Int) = 0
    rw [show ((p.results.length : Int) - 1 + 1) = (p.results.length : Int)
      by ring]
    exact Int.emod_self
/-- C5 (witness). -/
theorem C5_wraparound_witness :
    0 < ({ results := [7, 8, 9] } : Props Nat).results.length ∧
    ((fun s => (_moveActiveIndex ({ results := [7, 8, 9] } : Props Nat) s
        Operation.increase).1)^[3] ({ _activeIndex := 1 } : State))._activeIndex
      = 1 :=
  ⟨by decide,
    by
      have h := (C5_wraparound ({ results := [7, 8, 9] } : Props Nat)
        (by decide)).1 ({ _activeIndex := 1 } : State) (by decide) (by decide)
      simpa using h⟩

/-- C6: Enter or Space while the menu is open with non-empty results and
the active result disabled by the owner's predicate invokes neither
`onResultSelect` nor `onValue` and leaves the open flag unchanged. -/
theorem C6_disabled_result_noop {α : Type} (p : Props α)
    (toStr : Option α → String) (st : State) (hopen : st._open = true)
    (hres : 0 < p.results.length)
    (hdis : isResultDisabledFn p (jsIndex p.results st._activeIndex) = true) :
    (hasResultSelect (step p toStr (Event.inputKey Key.enter) st).2 = false ∧
      hasOnValue (step p toStr (Event.inputKey Key.enter) st).2 = false ∧
      (step p toStr (Event.inputKey Key.enter) st).1._open = st._open) ∧
    (hasResultSelect (step p toStr (Event.inputKey Key.space) st).2 = false ∧
      hasOnValue (step p toStr (Event.inputKey Key.space) st).2 = false ∧
      (step p toStr (Event.inputKey Key.space) st).1._open = st._open) := by
  simp [step, _onInputKey, hopen, hres, hdis, hasResultSelect, hasOnValue]

/-- C6 (witness). -/
theorem C6_disabled_result_noop_witness :
    hasResultSelect
      (step ({ results := [5], isResultDisabled := some (fun _ => true) } :
          Props Nat) (fun _ => "")
        (Event.inputKey Key.enter) ({ _open := true } : State)).2 = false ∧
    (step ({ results := [5], isResultDisabled := some (fun _ => true) } :
        Props Nat) (fun _ => "")
      (Event.inputKey Key.enter) ({ _open := true } : State)).1._open =
      ({ _open := true } : State)._open :=
  ⟨((C6_disabled_result_noop
      ({ results := [5], isResultDisabled := some (fun _ => true) } : Props Nat)
      (fun _ => "") ({ _open := true } : State) rfl (by decide) rfl).1).1,
    ((C6_disabled_result_noop
      ({ results := [5], isResultDisabled := some (fun _ => true) } : Props Nat)
      (fun _ => "") ({ _open := true } : State) rfl (by decide) rfl).1).2.2⟩

/-- C7: mouse-down on a result sets the one-shot `_ignoreBlur` flag; the
next input blur emits nothing (no `onBlur`, menu stays as it was) and
consumes the flag; a subsequent blur invokes `onBlur` and closes the
menu. -/
theorem C7_ignore_blur_one_shot {α : Type} (p : Props α)
    (toStr : Option α → String) (st : State) :
    (step p toStr Event.resultMouseDown st).1._ignoreBlur = true ∧
    (step p toStr Event.inputBlur
        (step p toStr Event.resultMouseDown st).1).2 = [] ∧
    (step p toStr Event.inputBlur
        (step p toStr Event.resultMouseDown st).1).1._open = st._open ∧
    (step p toStr Event.inputBlur
        (step p toStr Event.resultMouseDown st).1).1._ignoreBlur = false ∧
    hasOnBlur (step p toStr Event.inputBlur
        (step p toStr Event.inputBlur
          (step p toStr Event.resultMouseDown st).1).1).2 = true ∧
    (step p toStr Event.inputBlur
        (step p toStr Event.inputBlur
          (step p toStr Event.resultMouseDown st).1).1).1._open = false := by
  simp [step, _onResultMouseDown, _onInputBlur, _closeMenu, hasOnBlur]

/-- C8: selecting index `i` closes the menu, invokes `onResultSelect`
with the raw result object `results[i]`, and invokes `onValue` with the
string produced by the fallback chain `getResultValue`, else
`getResultLabel`, else the default string conversion; in particular with
no value extractor but a label extractor `L`, `onValue` receives
`L(results[i])`. -/
theorem C8_select_value_chain {α : Type} (p : Props α)
    (toStr : Option α → String) (st : State) (i : Nat)
    (h : i < p.results.length) :
    (_selectIndex p toStr st (i : Int)).1._open = false ∧
    (_selectIndex p toStr st (i : Int)).2 =
      [Effect.focusSelf, Effect.invalidate,
        Effect.onResultSelect (some (p.results.get ⟨i, h⟩)),
        Effect.onValue
          (_getResultValue p toStr (some (p.results.get ⟨i, h⟩)))] ∧
    (∀ f, p.getResultValue = some f →
      _getResultValue p toStr (some (p.results.get ⟨i, h⟩)) =
        f (some (p.results.get ⟨i, h⟩))) ∧
    (∀ L, p.getResultValue = none → p.getResultLabel = some L →
      _getResultValue p toStr (some (p.results.get ⟨i, h⟩)) =
        L (some (p.results.get ⟨i, h⟩))) ∧
    (p.getResultValue = none → p.getResultLabel = none →
      _getResultValue p toStr (some (p.results.get ⟨i, h⟩)) =
        toStr (some (p.results.get ⟨i, h⟩))) := by
  refine ⟨rfl, ?_, ?_, ?_, ?_⟩
  · simp [_selectIndex, _closeMenu, jsIndex_natCast p.results i h]
  · intro f hf
    simp [_getResultValue, hf]
  · intro L hv hl
    simp [_getResultValue, hv, hl]
  · intro hv hl
    simp [_getResultValue, hv, hl]

/-- C8 (witness): one result `7`, a label extractor returning `"seven"`,
no value extractor. -/
theorem C8_select_value_chain_witness :
    (_selectIndex
        ({ results := [7], getResultLabel := some (fun _ => "seven") } :
          Props Nat) (fun _ => "def") ({ _open := true } : State)
        ((0 : Nat) : Int)).2 =
      [Effect.focusSelf, Effect.invalidate,
        Effect.onResultSelect (some 7), Effect.onValue "seven"] := by
  have h := C8_select_value_chain
    ({ results := [7], getResultLabel := some (fun _ => "seven") } : Props Nat)
    (fun _ => "def") ({ _open := true } : State) 0 (by decide)
  exact h.2.1

/-- C9: the `validity` accessor maps a boolean `b` to `(some b, none)`, a
structured value to its `valid` and `message` fields, and an absent
property to `(none, none)`; the helper-text region of a render is shown
exactly when the post-render open flag is `false`. -/
theorem C9_validity_normalization {α : Type} (p : Props α) (st : State)
    (b : Bool) (v : Option Bool) (m : Option String) :
    validity { p with valid := some (JsValid.bool b) } = (some b, none) ∧
    validity { p with valid := some (JsValid.structured v m) } = (v, m) ∧
    validity { p with valid := none } = (none, none) ∧
    (render p st).2.2.helperShown = !(render p st).1._open := by
  refine ⟨rfl, rfl, rfl, rfl⟩

/-- C10: every input-value change emits `onValue` with the new value
first; when `disabled` and `readOnly` are both false it additionally
opens the menu, resets `_activeIndex` to `0`, and invokes
`onRequestResults`. -/
theorem C10_input_value_opens {α : Type} (p : Props α)
    (toStr : Option α → String) (st : State) (v : String) :
    (step p toStr (Event.inputValue v) st).2.head? =
      some (Effect.onValue v) ∧
    (p.disabled = false → p.readOnly = false →
      step p toStr (Event.inputValue v) st =
        ({ st with _activeIndex := 0, _open := true },
          [Effect.onValue v, Effect.onRequestResults, Effect.invalidate])) := by
  constructor
  · by_cases hd : p.disabled <;> by_cases hr : p.readOnly <;>
      simp [step, _onInputValue, _openMenu, hd, hr]
  · intro hd hr
    simp [step, _onInputValue, _openMenu, hd, hr]

/-- C10 (witness). -/
theorem C10_input_value_opens_witness :
    step ({} : Props Nat) (fun _ => "") (Event.inputValue "ab")
        ({} : State) =
      ({ ({} : State) with _activeIndex := 0, _open := true },
        [Effect.onValue "ab", Effect.onRequestResults, Effect.invalidate]) :=
  (C10_input_value_opens ({} : Props Nat) (fun _ => "") ({} : State) "ab").2
    rfl rfl
